import Mathlib

/-!
Verification of the core algorithms of the `globe` content pipeline:
the SEO analyzer (`utils/seo_optimizer.py`) and the feed parser
(`utils/feed_parser.py`).  The Python code is shallowly embedded:
strings become `List Char`, Python floats become `ℚ`, regex searches
become explicit scanning functions, and the external collaborators
(the noun-phrase extractor and the feed fetch primitive) become
function parameters.
-/

/-! ## Basic string utilities shared by both components -/

/-- Python `\s` on ASCII text: the whitespace characters recognised by
`str.split()` and the `\s` regex class. -/
def isPySpace (c : Char) : Bool :=
  c = ' ' || c = '\t' || c = '\n' || c = '\r' || c = '\x0b' || c = '\x0c'

/-- ASCII lower-casing, matching Python `str.lower()` on ASCII input. -/
def lowerL (s : List Char) : List Char := s.map Char.toLower

/-- Accumulator for `pySplit`: `acc` holds the current word reversed. -/
def pySplitAux : List Char → List Char → List (List Char)
  | acc, [] => if acc.isEmpty then [] else [acc.reverse]
  | acc, c :: rest =>
      if isPySpace c then
        (if acc.isEmpty then pySplitAux [] rest else acc.reverse :: pySplitAux [] rest)
      else pySplitAux (c :: acc) rest

/-- Python `str.split()` with no argument: split on runs of whitespace,
dropping empty pieces. -/
def pySplit (s : List Char) : List (List Char) := pySplitAux [] s

/-- Python substring test `needle in hay`. -/
def hasSub (hay needle : List Char) : Bool :=
  match hay with
  | [] => needle.isEmpty
  | c :: t => needle.isPrefixOf (c :: t) || hasSub t needle

/-- Python `' '.join(words)`. -/
def joinSpace (ws : List (List Char)) : List Char := List.intercalate [' '] ws

/-! ## Regex-existence model

The SEO analyzer only ever asks `bool(re.findall(pat, text))` for
patterns that are sequences of literal fragments separated by `.*?`
gaps.  Since `.` does not match a newline, such a pattern has a match
iff the fragments occur in order, left to right, with no newline inside
any gap.  `gapChainF` checks a fragment chain starting with a
newline-free gap; `reSearch` allows an unrestricted gap before the
first fragment (the regex engine scans every start position). -/

def gapChainF : Nat → List (List Char) → List Char → Bool
  | 0, pats, _ => pats.isEmpty
  | Nat.succ _, [], _ => true
  | Nat.succ fuel, pat :: rest, s =>
      (pat.isPrefixOf s && gapChainF fuel rest (s.drop pat.length)) ||
      (match s with
       | [] => false
       | c :: tail => (if c = '\n' then false else gapChainF fuel (pat :: rest) tail))

/-- Fragment chain with newline-free gaps; the fuel `pats.length + s.length + 1`
is never exhausted because every step shrinks `pats` or `s`. -/
def gapChain (pats : List (List Char)) (s : List Char) : Bool :=
  gapChainF (pats.length + s.length + 1) pats s

/-- Search every start position for the first fragment, then chain the rest. -/
def reSearchAux (pat : List Char) (rest : List (List Char)) : List Char → Bool
  | [] => pat.isPrefixOf [] && gapChain rest []
  | c :: t =>
      (pat.isPrefixOf (c :: t) && gapChain rest ((c :: t).drop pat.length)) ||
      reSearchAux pat rest t

/-- Existence of a match of `lit₁.*?lit₂.*? ... litₙ` in `s`
(`bool(re.findall(...))` for the analyzer's link/image/heading patterns). -/
def reSearch (pats : List (List Char)) (s : List Char) : Bool :=
  match pats with
  | [] => true
  | pat :: rest => reSearchAux pat rest s

/-! ## Word-boundary match counting

`re.findall(rf'\b{re.escape(keyword)}\b', text)` counts non-overlapping
occurrences of the literal keyword flanked by word boundaries.  A word
boundary sits between two stream positions exactly when one side is a
word character (`[A-Za-z0-9_]`) and the other is not (ends of the
string count as non-word). -/

def isWordChar (c : Char) : Bool := c.isAlphanum || c = '_'

def wOpt : Option Char → Bool
  | none => false
  | some c => isWordChar c

/-- Word boundary between a previous and a next character. -/
def bdry (a b : Option Char) : Bool := !(wOpt a == wOpt b)

/-- Fuel-indexed scan of `s` counting `\b kw \b` matches; `prev` is the
character just before the current position.  An empty keyword counts the
boundary positions, matching `re.findall` on a zero-width pattern. -/
def countWBFuel : Nat → List Char → Option Char → List Char → Nat
  | 0, _, _, _ => 0
  | Nat.succ fuel, kw, prev, s =>
      match kw with
      | [] =>
          match s with
          | [] => if bdry prev none then 1 else 0
          | c :: tail => (if bdry prev (some c) then 1 else 0) + countWBFuel fuel [] (some c) tail
      | k :: ks =>
          match s with
          | [] => 0
          | c :: tail =>
              if (k :: ks).isPrefixOf (c :: tail)
                  && bdry prev (some k)
                  && bdry (some ((k :: ks).getLastD k)) (((c :: tail).drop (k :: ks).length).head?)
              then 1 + countWBFuel fuel (k :: ks) (some ((k :: ks).getLastD k)) ((c :: tail).drop (k :: ks).length)
              else countWBFuel fuel (k :: ks) (some c) tail

/-- Number of matches of `re.findall(rf'\b{re.escape(kw)}\b', s)`. -/
def countWB (kw s : List Char) : Nat := countWBFuel (s.length + 1) kw none s

/-! ## SEO analyzer (`utils/seo_optimizer.py`) -/

/-- `self.power_words` from `SEOOptimizer.__init__`. -/
def powerWords : List (List Char) :=
  ["amazing".toList, "exclusive".toList, "free".toList, "instant".toList,
   "new".toList, "proven".toList, "guaranteed".toList, "powerful".toList]

/-- `self.sentiment_words` from `SEOOptimizer.__init__`. -/
def sentimentWords : List (List Char) :=
  ["best".toList, "great".toList, "awesome".toList, "terrible".toList,
   "worst".toList, "amazing".toList, "awful".toList, "excellent".toList]

/-- Input record for `analyze_content`: `content` is required, `title`
and `meta_description` default to the empty string via `.get`. -/
structure Article where
  content : String
  title : String
  meta_description : String
deriving DecidableEq

structure TitleAnalysis where
  has_keyword : Bool
  keyword_at_beginning : Bool
  has_number : Bool
  has_power_word : Bool
  has_sentiment : Bool
deriving DecidableEq

structure ParagraphStats where
  avg_length : ℚ
  total_paragraphs : Nat
deriving DecidableEq

structure ContentAnalysis where
  has_keyword_beginning : Bool
  has_subheadings : Bool
  has_keyword_in_subheading : Bool
  has_images : Bool
  has_keyword_in_alt : Bool
  has_external_links : Bool
  has_internal_links : Bool
  paragraph_length : ParagraphStats
deriving DecidableEq

structure SeoMetrics where
  focus_keyword : String
  word_count : Nat
  keyword_density : List (String × ℚ)
  readability_score : ℚ
  suggestions : List String
  title_analysis : TitleAnalysis
  content_analysis : ContentAnalysis
deriving DecidableEq

/-- Greedy tail of the blank-line regex: given the characters after a
leading `'\n'`, consume `\s*\n` as far as possible (the end of the match
is the last newline inside the whitespace run).  Returns the suffix
after the match, or `none` when `\s*\n` cannot match. -/
def matchTailAux : List Char → Option (List Char) → Option (List Char)
  | [], best => best
  | c :: rest, best =>
      if c = '\n' then matchTailAux rest (some rest)
      else if isPySpace c then matchTailAux rest best
      else best

/-- Prepend a character to the first piece of a split result. -/
def consHead (c : Char) : List (List Char) → List (List Char)
  | [] => [[c]]
  | h :: t => (c :: h) :: t

/-- Fuel-indexed `re.split(r'\n\s*\n', text)`; every step consumes at
least one character, so fuel `s.length` always suffices. -/
def splitBlankF : Nat → List Char → List (List Char)
  | 0, s => [s]
  | Nat.succ _, [] => [[]]
  | Nat.succ fuel, c :: rest =>
      if c = '\n' then
        match matchTailAux rest none with
        | some rest2 => [] :: splitBlankF fuel rest2
        | none => consHead c (splitBlankF fuel rest)
      else consHead c (splitBlankF fuel rest)

/-- `re.split(r'\n\s*\n', text)` — the paragraph split of `_analyze_paragraphs`. -/
def splitBlank (s : List Char) : List (List Char) := splitBlankF s.length s

/-- `SEOOptimizer._analyze_paragraphs`. -/
def analyzeParagraphs (text : String) : ParagraphStats :=
  let ps := splitBlank text.toList
  { avg_length :=
      if ps.isEmpty then 0
      else ((ps.map (fun p => (pySplit p).length)).sum : ℚ) / (ps.length : ℚ),
    total_paragraphs := ps.length }

/-- Maximal runs of sentence delimiters `[.!?]+`; `re.split` produces
one more piece than there are delimiter runs. -/
def isSentDelim (c : Char) : Bool := c = '.' || c = '!' || c = '?'

def sentRuns : Bool → List Char → Nat
  | _, [] => 0
  | inRun, c :: tail =>
      if isSentDelim c then (if inRun then 0 else 1) + sentRuns true tail
      else sentRuns false tail

/-- `len(re.split(r'[.!?]+', text))` from `_calculate_readability`. -/
def sentCount (s : List Char) : Nat := 1 + sentRuns false s

def isVowel (c : Char) : Bool :=
  c = 'a' || c = 'e' || c = 'i' || c = 'o' || c = 'u' || c = 'y'

def syllAux : Bool → List Char → Nat
  | _, [] => 0
  | onV, c :: tail => (if isVowel c && !onV then 1 else 0) + syllAux (isVowel c) tail

/-- `SEOOptimizer._count_syllables`: transitions from non-vowel to vowel
in the lower-cased text. -/
def syllCount (s : List Char) : Nat := syllAux false (lowerL s)

/-- `SEOOptimizer._calculate_readability`: Flesch Reading Ease, 0 when
there are no words or no sentence pieces, clamped to `[0, 100]`. -/
def readabilityOf (text : String) : ℚ :=
  let sentences := sentCount text.toList
  let words := (pySplit text.toList).length
  let syllables := syllCount text.toList
  if sentences = 0 ∨ words = 0 then 0
  else
    max 0 (min 100 ((206.835 : ℚ) - (1.015 : ℚ) * ((words : ℚ) / (sentences : ℚ))
      - (84.6 : ℚ) * ((syllables : ℚ) / (words : ℚ))))

/-- Per-keyword density from the loop in `analyze_content`: whole-word
matches of the literal keyword in the lower-cased content, divided by
the whitespace word count, and 0 when the word count is 0. -/
def keywordDensityOf (text kw : String) : ℚ :=
  let wc := (pySplit text.toList).length
  if 0 < wc then ((countWB kw.toList (lowerL text.toList) : ℚ) / (wc : ℚ)) else 0

/-- Title block of `analyze_content` (lines 39–46). -/
def titleAnalysisOf (kws : List String) (title : String) : TitleAnalysis :=
  let titleLower := lowerL title.toList
  let title_words := pySplit titleLower
  { has_keyword := kws.any (fun kw => hasSub titleLower (lowerL kw.toList)),
    keyword_at_beginning :=
      kws.any (fun kw => hasSub (lowerL (joinSpace (title_words.take 3))) (lowerL kw.toList)),
    has_number := title_words.any (fun w => !w.isEmpty && w.all Char.isDigit),
    has_power_word := title_words.any (fun w => powerWords.contains (lowerL w)),
    has_sentiment := title_words.any (fun w => sentimentWords.contains (lowerL w)) }

/-- Content block of `analyze_content` (lines 49–58).  Patterns compiled
with `re.I` are searched in the lower-cased text. -/
def contentAnalysisOf (kws : List String) (text : String) : ContentAnalysis :=
  let t := text.toList
  let tLower := lowerL t
  let focus : String := match kws with | k :: _ => k | [] => ""
  let focusLower := lowerL focus.toList
  { has_keyword_beginning :=
      kws.any (fun kw => hasSub (lowerL (joinSpace ((pySplit t).take 50))) (lowerL kw.toList)),
    has_subheadings :=
      hasSub t ("<h2>".toList) || hasSub t ("<h3>".toList) || hasSub t ("<h4>".toList),
    has_keyword_in_subheading :=
      (["<h2>", "<h3>", "<h4>"].any fun o =>
        (["</h2>", "</h3>", "</h4>"].any fun c =>
          reSearch [o.toList, focusLower, c.toList] tLower)),
    has_images := reSearch ["<img".toList, ">".toList] t,
    has_keyword_in_alt :=
      reSearch ["<img".toList, "alt=\"".toList, focusLower, "\"".toList, ">".toList] tLower,
    has_external_links :=
      reSearch ["<a".toList, "href=\"http://".toList, "\"".toList, ">".toList] t ||
      reSearch ["<a".toList, "href=\"https://".toList, "\"".toList, ">".toList] t,
    has_internal_links := reSearch ["<a".toList, "href=\"/\"".toList, ">".toList] t,
    paragraph_length := analyzeParagraphs text }

/-- `SEOOptimizer._generate_suggestions`, as the list of strings appended
in source order. -/
def suggestionsOf (wc : Nat) (ta : TitleAnalysis) (ca : ContentAnalysis) : List String :=
  (if wc < 600 then ["Increase content length to at least 600 words"] else [])
  ++ (if ta.has_keyword then [] else ["Add focus keyword to SEO title"])
  ++ (if ta.keyword_at_beginning then [] else ["Move focus keyword closer to the beginning of the title"])
  ++ (if ca.has_keyword_in_subheading then [] else ["Add focus keyword to at least one subheading"])
  ++ (if ca.has_images then [] else ["Add at least one image to the content"])
  ++ (if ca.has_external_links then [] else ["Add external links to authoritative sources"])
  ++ (if ca.has_internal_links then [] else ["Add internal links to related content"])

/-- `SEOOptimizer.analyze_content`.  `np` models the external noun-phrase
extractor (`TextBlob(text).noun_phrases`); it is consulted only when
`keywords` is `none` or the empty list, and only its first phrase is kept. -/
def analyze_content (np : String → List String) (article : Article)
    (keywords : Option (List String)) : SeoMetrics :=
  let text := article.content
  let title := article.title
  let kws : List String :=
    match keywords with
    | some (k :: ks) => k :: ks
    | _ => (np text).take 1
  let word_count := (pySplit text.toList).length
  let ta := titleAnalysisOf kws title
  let ca := contentAnalysisOf kws text
  { focus_keyword := match kws with | k :: _ => k | [] => "",
    word_count := word_count,
    keyword_density := kws.map (fun kw => (kw, keywordDensityOf text kw)),
    readability_score := readabilityOf text,
    suggestions := suggestionsOf word_count ta ca,
    title_analysis := ta,
    content_analysis := ca }

/-- Trivial noun-phrase extractor used for concrete instances. -/
def npNone : String → List String := fun _ => []

/-! ## Feed parser (`utils/feed_parser.py`) -/

/-- Error taxonomy of `FeedParser` (spec §7); the Python code raises
`Exception` with a distinguishing message on each of these paths. -/
inductive FeedErr where
  | invalidInput
  | wrongContentType (ct : String)
  | malformedFeed
  | parseErr (msg : String)
  | unknownVersion
  | emptyFeed
  | notFound (name : String)
deriving DecidableEq

/-- Characters allowed in a URL scheme after the leading letter
(`urllib.parse.scheme_chars`). -/
def schemeOkChar (c : Char) : Bool := c.isAlphanum || c = '+' || c = '-' || c = '.'

/-- `urllib.parse` removes tab, carriage return and newline before parsing. -/
def stripUnsafe (s : List Char) : List Char :=
  s.filter (fun c => !(c = '\t' || c = '\r' || c = '\n'))

/-- Model of `urllib.parse.urlparse`, restricted to the two components
`is_valid_url` inspects: the scheme (the lower-cased prefix before the
first `':'`, if it starts with a letter and uses only scheme characters
and the `':'` is not first) and the network location (after a leading
`"//"`, up to the next `/`, `?` or `#`).  `none` models the
`ValueError` raised on a lone square bracket in the netloc.  Leading
C0-control and space characters are stripped first, as `urlsplit` does. -/
def pyUrlsplit (url : String) : Option (List Char × List Char) :=
  let u := stripUnsafe (url.toList.dropWhile (fun c => decide (c.toNat ≤ 32)))
  let sr : List Char × List Char :=
    match u.findIdx? (fun c => c = ':') with
    | some i =>
        if 0 < i && (match u.head? with | some c => c.isAlpha | none => false)
            && (u.take i).all schemeOkChar
        then (lowerL (u.take i), u.drop (i + 1))
        else ([], u)
    | none => ([], u)
  let netloc :=
    if ("//".toList).isPrefixOf sr.2
    then (sr.2.drop 2).takeWhile (fun c => !(c = '/' || c = '?' || c = '#'))
    else []
  if (netloc.contains '[' && !(netloc.contains ']'))
      || (netloc.contains ']' && !(netloc.contains '[')) then none
  else some (sr.1, netloc)

/-- `FeedParser.is_valid_url`: both scheme and netloc non-empty; any
parsing exception yields `false`. -/
def is_valid_url (url : String) : Bool :=
  match pyUrlsplit url with
  | none => false
  | some (scheme, netloc) => !scheme.isEmpty && !netloc.isEmpty

/-- One entry of the external syndication-parse result (spec §6): every
field optional; `contentBlocks` models `entry.content`, a list of blocks
whose `.value` strings we keep. -/
structure FPEntry where
  title : Option String
  link : Option String
  published : Option String
  summary : Option String
  description : Option String
  contentBlocks : Option (List String)
deriving DecidableEq

/-- The structured document returned by the fetch-and-parse primitive
(`feedparser.parse`): optional transport headers, malformed-document
flag and message, detected version, feed-level title, and entries. -/
structure RawFeed where
  headers : Option (List (String × String))
  bozo : Bool
  bozoMsg : Option String
  version : Option String
  feedTitle : Option String
  entries : List FPEntry
deriving DecidableEq

/-- The uniform article record emitted by `parse_feed`. -/
structure ArticleRecord where
  title : String
  link : String
  published : String
  summary : String
  content : String
  source : String
deriving DecidableEq

/-- `feed.headers.get('content-type', '')`. -/
def lookupHdr (hs : List (String × String)) (k : String) : String :=
  match hs.find? (fun p => p.1 = k) with
  | some p => p.2
  | none => ""

/-- Lower-cased string, at `String` type. -/
def lowerS (s : String) : String := String.mk (lowerL s.toList)

/-- The content-type test of `parse_feed` lines 29–31: the lower-cased
`content-type` header contains none of `"xml"`, `"rss"`, `"atom"`. -/
def ctBad (hs : List (String × String)) : Bool :=
  let ct := lowerL (lookupHdr hs "content-type").toList
  !(hasSub ct ("xml".toList)) && !(hasSub ct ("rss".toList)) && !(hasSub ct ("atom".toList))

/-- Build one output record (`parsed_entry` dict, lines 58–65);
`c` is the already-extracted content, `ftitle` the feed-level source. -/
def mkRecord (now ftitle : String) (e : FPEntry) (c : String) : ArticleRecord :=
  { title := e.title.getD "",
    link := e.link.getD "",
    published := e.published.getD now,
    summary := e.summary.getD "",
    content := c,
    source := ftitle }

/-- Content extraction with fallbacks (lines 50–56): structured content
block first element, else summary, else description, else `""`.  An
empty `entry.content` list would raise `IndexError` in Python, wrapped
into the generic parse failure. -/
def extractEntry (now ftitle : String) (e : FPEntry) : Except FeedErr ArticleRecord :=
  match e.contentBlocks with
  | some [] => Except.error (FeedErr.parseErr "list index out of range")
  | some (v :: _) => Except.ok (mkRecord now ftitle e v)
  | none =>
      match e.summary with
      | some s => Except.ok (mkRecord now ftitle e s)
      | none => Except.ok (mkRecord now ftitle e (e.description.getD ""))

/-- The entry loop of `parse_feed`, propagating the first failure. -/
def extractAll (now ftitle : String) : List FPEntry → Except FeedErr (List ArticleRecord)
  | [] => Except.ok []
  | e :: es =>
      match extractEntry now ftitle e with
      | Except.error err => Except.error err
      | Except.ok r =>
          match extractAll now ftitle es with
          | Except.error err => Except.error err
          | Except.ok rs => Except.ok (r :: rs)

/-- Stages of `parse_feed` after the content-type check: malformed-feed
detection (lines 34–37), version check (40–41), empty check (44–45) and
the entry loop. -/
def parseStage2 (now : String) (feed : RawFeed) : Except FeedErr (List ArticleRecord) :=
  if feed.bozo && feed.bozoMsg.isSome then
    (if hasSub ((feed.bozoMsg.getD "").toList) ("SAX".toList)
     then Except.error FeedErr.malformedFeed
     else Except.error (FeedErr.parseErr (feed.bozoMsg.getD "")))
  else if (feed.version.getD "") = "" then Except.error FeedErr.unknownVersion
  else if feed.entries.isEmpty then Except.error FeedErr.emptyFeed
  else extractAll now (feed.feedTitle.getD "Unknown Source") feed.entries

/-- `FeedParser.parse_feed`.  `fetch` models `feedparser.parse`; `now`
models `datetime.datetime.now().strftime('%Y-%m-%d %H:%M:%S')`. -/
def parse_feed (fetch : String → RawFeed) (now url : String) :
    Except FeedErr (List ArticleRecord) :=
  if is_valid_url url then
    let feed := fetch url
    match feed.headers with
    | some hs =>
        if ctBad hs
        then Except.error (FeedErr.wrongContentType (lowerS (lookupHdr hs "content-type")))
        else parseStage2 now feed
    | none => parseStage2 now feed
  else Except.error FeedErr.invalidInput

/-- Whether a parse result is the `WrongContentType` failure. -/
def isWCT : Except FeedErr (List ArticleRecord) → Bool
  | Except.error (FeedErr.wrongContentType _) => true
  | _ => false

/-! ### Feed registry (`add_feed` / `remove_feed`)

`self.feeds` is a name → URL dict; the embedding is an association list
with dict update semantics, paired with the raised error (if any) so
that the post-call state is explicit. -/

def Registry := List (String × String)

/-- Dict membership `name in self.feeds`. -/
def hasKey (reg : List (String × String)) (name : String) : Bool :=
  reg.any (fun p => p.1 = name)

/-- Dict assignment `self.feeds[name] = url`. -/
def dictSet (reg : List (String × String)) (name url : String) : List (String × String) :=
  if hasKey reg name
  then reg.map (fun p => if p.1 = name then (name, url) else p)
  else reg ++ [(name, url)]

/-- Dict deletion `del self.feeds[name]`. -/
def dictDel (reg : List (String × String)) (name : String) : List (String × String) :=
  reg.filter (fun p => !(p.1 = name))

/-- `FeedParser.add_feed`: empty name or URL, or an invalid URL, raise
before the dict is touched. -/
def add_feed (reg : List (String × String)) (name url : String) :
    List (String × String) × Option FeedErr :=
  if name = "" || url = "" then (reg, some FeedErr.invalidInput)
  else if !(is_valid_url url) then (reg, some FeedErr.invalidInput)
  else (dictSet reg name url, none)

/-- `FeedParser.remove_feed`: an absent name raises and leaves the dict
unchanged. -/
def remove_feed (reg : List (String × String)) (name : String) :
    List (String × String) × Option FeedErr :=
  if hasKey reg name then (dictDel reg name, none)
  else (reg, some (FeedErr.notFound name))

/-- A fetch stub for concrete instances. -/
def fetchNothing : String → RawFeed := fun _ => ⟨none, false, none, none, none, []⟩

/-- Modelled from the claim's fallback order (spec §4.1 step 6): the
body text of an entry is the first structured content block, else the
summary, else the description, else the empty string. -/
def specFallbackContent (e : FPEntry) : String :=
  match e.contentBlocks with
  | some (v :: _) => v
  | _ =>
      match e.summary with
      | some s => s
      | none => e.description.getD ""

/-- Concrete feed exercising the content fallback: one entry with only a
description, one with both a summary and a structured content block. -/
def c7Feed : RawFeed :=
  ⟨none, false, none, some "rss20", some "Src",
   [⟨none, none, none, none, some "only description", none⟩,
    ⟨none, none, none, some "the summary", none, some ["block value"]⟩]⟩

def c7Fetch : String → RawFeed := fun _ => c7Feed

/-- The records `parse_feed` produces from `c7Feed` at time stamp "T". -/
def c7Records : List ArticleRecord :=
  [⟨"", "", "T", "", "only description", "Src"⟩,
   ⟨"", "", "T", "the summary", "block value", "Src"⟩]

/-! ## Helper lemmas -/

theorem prefix_hasSub {s p : List Char} (h : p.isPrefixOf s = true) : hasSub s p = true := by
  cases s with
  | nil =>
      cases p with
      | nil => rfl
      | cons a t => simp [List.isPrefixOf] at h
  | cons c t => simp [hasSub, h]

theorem hasSub_cons {c : Char} {t p : List Char} (h : hasSub t p = true) :
    hasSub (c :: t) p = true := by
  simp [hasSub, h]

theorem hasSub_drop {p : List Char} :
    ∀ (n : Nat) (s : List Char), hasSub (s.drop n) p = true → hasSub s p = true := by
  intro n
  induction n with
  | zero => intro s h; simpa using h
  | succ n ih =>
      intro s h
      cases s with
      | nil => simpa using h
      | cons c t => exact hasSub_cons (ih t h)

theorem gapChainF_hasSub :
    ∀ (fuel : Nat) (p : List Char) (rest : List (List Char)) (s : List Char),
      gapChainF fuel (p :: rest) s = true → hasSub s p = true := by
  intro fuel
  induction fuel with
  | zero => intro p rest s h; simp [gapChainF] at h
  | succ fuel ih =>
      intro p rest s h
      cases s with
      | nil =>
          simp only [gapChainF] at h
          rcases (Bool.or_eq_true _ _).mp h with h1 | h2
          · exact prefix_hasSub ((Bool.and_eq_true _ _).mp h1).1
          · exact absurd h2 (by simp)
      | cons c t =>
          simp only [gapChainF] at h
          rcases (Bool.or_eq_true _ _).mp h with h1 | h2
          · exact prefix_hasSub ((Bool.and_eq_true _ _).mp h1).1
          · by_cases hc : c = '\n'
            · rw [if_pos hc] at h2; exact absurd h2 (by simp)
            · rw [if_neg hc] at h2; exact hasSub_cons (ih p rest t h2)

theorem reSearchAux_hasSub :
    ∀ (s pat q : List Char) (qs : List (List Char)),
      reSearchAux pat (q :: qs) s = true → hasSub s q = true := by
  intro s
  induction s with
  | nil =>
      intro pat q qs h
      simp only [reSearchAux] at h
      exact gapChainF_hasSub _ q qs [] ((Bool.and_eq_true _ _).mp h).2
  | cons c t ih =>
      intro pat q qs h
      simp only [reSearchAux] at h
      rcases (Bool.or_eq_true _ _).mp h with h1 | h2
      · exact hasSub_drop pat.length (c :: t)
          (gapChainF_hasSub _ q qs _ ((Bool.and_eq_true _ _).mp h1).2)
      · exact hasSub_cons (ih pat q qs h2)

theorem consHead_ne_nil (c : Char) (l : List (List Char)) : consHead c l ≠ [] := by
  cases l <;> simp [consHead]

theorem splitBlankF_ne_nil (fuel : Nat) : ∀ s : List Char, splitBlankF fuel s ≠ [] := by
  induction fuel with
  | zero => intro s; simp [splitBlankF]
  | succ fuel ih =>
      intro s
      cases s with
      | nil => simp [splitBlankF]
      | cons c rest =>
          simp only [splitBlankF]
          by_cases h : c = '\n'
          · rw [if_pos h]
            cases hm : matchTailAux rest none with
            | some rest2 => simp
            | none => exact consHead_ne_nil _ _
          · rw [if_neg h]
            exact consHead_ne_nil _ _

theorem splitBlank_ne_nil (s : List Char) : splitBlank s ≠ [] :=
  splitBlankF_ne_nil s.length s


/-! ## Claim theorems -/

/-- C1 counterexample: on the very input the claim describes, the title
token "amazing" is also in the sentiment vocabulary, so `has_sentiment`
is `true`, contradicting the claimed `has_sentiment == false`. -/
theorem c1_counterexample :
    (analyze_content npNone ⟨"", "5 Amazing Tips", ""⟩ (some ["tips"])).title_analysis.has_sentiment
      = true := by decide

/-- C1 (amended): for the title "5 Amazing Tips" analyzed with the single
keyword "tips", `analyze` returns `title_analysis` with
`has_number == true`, `has_power_word == true`,
`keyword_at_beginning == true` — and `has_sentiment == true`, because
the token "amazing" belongs to the sentiment vocabulary as well. -/
theorem c1_title_analysis (np : String → List String) (text : String) :
    (analyze_content np ⟨text, "5 Amazing Tips", ""⟩ (some ["tips"])).title_analysis.has_number = true
    ∧ (analyze_content np ⟨text, "5 Amazing Tips", ""⟩ (some ["tips"])).title_analysis.has_power_word = true
    ∧ (analyze_content np ⟨text, "5 Amazing Tips", ""⟩ (some ["tips"])).title_analysis.keyword_at_beginning = true
    ∧ (analyze_content np ⟨text, "5 Amazing Tips", ""⟩ (some ["tips"])).title_analysis.has_sentiment = true :=
  ⟨rfl, rfl, rfl, rfl⟩

/-- C2 counterexample: for content "a-a-a" and keyword "a" there is one
whitespace word but three whole-word matches, so the density is 3,
outside the claimed range [0, 1]. -/
theorem c2_counterexample :
    (analyze_content npNone ⟨"a-a-a", "", ""⟩ (some ["a"])).keyword_density = [("a", (3 : ℚ))]
    ∧ ¬((3 : ℚ) ≤ 1) := by
  constructor
  · have hc : countWB "a".toList (lowerL "a-a-a".toList) = 3 := by decide
    have hw : (pySplit "a-a-a".toList).length = 1 := by decide
    simp only [analyze_content, keywordDensityOf, List.map_cons, List.map_nil, hc, hw]
    norm_num
  · norm_num

/-- C2 (amended): each value in `keyword_density` is the count of
whole-word matches of the literal keyword in the lower-cased content
divided by the whitespace word count (0 when the word count is 0); each
value is non-negative, but can exceed 1 when the keyword matches more
often than there are whitespace words. -/
theorem c2_density (np : String → List String) (a : Article) (kopt : Option (List String)) :
    ∀ p ∈ (analyze_content np a kopt).keyword_density,
      0 ≤ p.2
      ∧ p.2 = (if 0 < (pySplit a.content.toList).length
               then (countWB p.1.toList (lowerL a.content.toList) : ℚ)
                    / ((pySplit a.content.toList).length : ℚ)
               else 0)
      ∧ ((pySplit a.content.toList).length = 0 → p.2 = 0) := by
  intro p hp
  simp only [analyze_content, List.mem_map] at hp
  obtain ⟨kw, _, rfl⟩ := hp
  refine ⟨?_, rfl, ?_⟩
  · show 0 ≤ keywordDensityOf a.content kw
    unfold keywordDensityOf
    by_cases h : 0 < (pySplit a.content.toList).length
    · rw [if_pos h]
      exact div_nonneg (Nat.cast_nonneg _) (Nat.cast_nonneg _)
    · rw [if_neg h]
  · intro h
    show keywordDensityOf a.content kw = 0
    unfold keywordDensityOf
    rw [if_neg (by omega)]

/-- C2 witness: a concrete density value produced by `analyze` is
non-negative. -/
theorem c2_density_witness : 0 ≤ keywordDensityOf "hello world" "hello" := by
  have hmem : ("hello", keywordDensityOf "hello world" "hello")
      ∈ (analyze_content npNone ⟨"hello world", "", ""⟩ (some ["hello"])).keyword_density := by
    show _ ∈ [("hello", keywordDensityOf "hello world" "hello")]
    exact List.mem_singleton.mpr rfl
  exact (c2_density npNone ⟨"hello world", "", ""⟩ (some ["hello"]) _ hmem).1

/-- C3: `paragraph_length` reports the paragraph count of the blank-line
split and the average whitespace-token count per paragraph; if the split
were empty both values would be 0; and the concrete content
"para one line\n\npara two three four" yields 2 paragraphs with average
length 7/2. -/
theorem c3_paragraphs :
    analyzeParagraphs "para one line\n\npara two three four" = ⟨(7/2 : ℚ), 2⟩
    ∧ (∀ text : String,
        (analyzeParagraphs text).total_paragraphs = (splitBlank text.toList).length
        ∧ ((analyzeParagraphs text).total_paragraphs ≠ 0 →
            (analyzeParagraphs text).avg_length
              = (((splitBlank text.toList).map (fun p => (pySplit p).length)).sum : ℚ)
                / ((splitBlank text.toList).length : ℚ))
        ∧ ((analyzeParagraphs text).total_paragraphs = 0 →
            (analyzeParagraphs text).avg_length = 0
            ∧ (analyzeParagraphs text).total_paragraphs = 0)) := by
  constructor
  · have h : splitBlank "para one line\n\npara two three four".toList
        = ["para one line".toList, "para two three four".toList] := by decide
    have h1 : (pySplit "para one line".toList).length = 3 := by decide
    have h2 : (pySplit "para two three four".toList).length = 4 := by decide
    simp only [analyzeParagraphs, h, List.map_cons, List.map_nil, h1, h2, List.isEmpty_cons,
      List.length_cons, List.length_nil, List.sum_cons, List.sum_nil, ParagraphStats.mk.injEq]
    norm_num
  · intro text
    have hne : splitBlank text.toList ≠ [] := splitBlank_ne_nil _
    have hemp : (splitBlank text.toList).isEmpty = false := by
      cases hsp : splitBlank text.toList with
      | nil => exact absurd hsp hne
      | cons a l => rfl
    refine ⟨rfl, ?_, ?_⟩
    · intro _
      show (if (splitBlank text.toList).isEmpty then (0 : ℚ) else _) = _
      rw [hemp]
      simp
    · intro h
      exact absurd (List.length_eq_zero.mp h) hne

/-- C3 witness: the average for a concrete two-paragraph content is the
token sum divided by the paragraph count. -/
theorem c3_paragraphs_witness :
    (analyzeParagraphs "one two\n\nthree").avg_length
      = (((splitBlank "one two\n\nthree".toList).map (fun p => (pySplit p).length)).sum : ℚ)
        / ((splitBlank "one two\n\nthree".toList).length : ℚ) :=
  ((c3_paragraphs).2 "one two\n\nthree").2.1 (by decide)

theorem ctBad_true_iff (hs : List (String × String)) :
    ctBad hs = true ↔
      (hasSub (lowerL (lookupHdr hs "content-type").toList) ("xml".toList) = false
       ∧ hasSub (lowerL (lookupHdr hs "content-type").toList) ("rss".toList) = false
       ∧ hasSub (lowerL (lookupHdr hs "content-type").toList) ("atom".toList) = false) := by
  simp [ctBad, Bool.and_eq_true, Bool.not_eq_true', and_assoc]

theorem extractEntry_err (now ftitle : String) (e : FPEntry) (err : FeedErr)
    (h : extractEntry now ftitle e = Except.error err) :
    err = FeedErr.parseErr "list index out of range" := by
  unfold extractEntry at h
  cases hcb : e.contentBlocks with
  | none =>
      rw [hcb] at h
      cases hs : e.summary with
      | none => rw [hs] at h; simp at h
      | some s => rw [hs] at h; simp at h
  | some l =>
      cases l with
      | nil => rw [hcb] at h; simp only [Except.error.injEq] at h; exact h.symm
      | cons v vs => rw [hcb] at h; simp at h

theorem extractAll_not_wct (now ftitle : String) :
    ∀ es : List FPEntry, isWCT (extractAll now ftitle es) = false := by
  intro es
  induction es with
  | nil => rfl
  | cons e es ih =>
      simp only [extractAll]
      cases he : extractEntry now ftitle e with
      | error err =>
          rw [extractEntry_err now ftitle e err he]
          rfl
      | ok r =>
          cases ha : extractAll now ftitle es with
          | error err2 => rw [ha] at ih; exact ih
          | ok rs => rfl

theorem parseStage2_not_wct (now : String) (feed : RawFeed) :
    isWCT (parseStage2 now feed) = false := by
  unfold parseStage2
  split_ifs <;> first | rfl | exact extractAll_not_wct _ _ _

/-- C4: once the URL is valid, the parse fails with `WrongContentType`
iff the feed reports headers whose (lower-cased) content type contains
none of "xml", "rss", "atom"; when no headers are reported this failure
cannot occur. -/
theorem c4_content_type (fetch : String → RawFeed) (now url : String)
    (hv : is_valid_url url = true) :
    ((fetch url).headers = none → isWCT (parse_feed fetch now url) = false)
    ∧ (∀ hs, (fetch url).headers = some hs →
        (isWCT (parse_feed fetch now url) = true ↔
          (hasSub (lowerL (lookupHdr hs "content-type").toList) ("xml".toList) = false
           ∧ hasSub (lowerL (lookupHdr hs "content-type").toList) ("rss".toList) = false
           ∧ hasSub (lowerL (lookupHdr hs "content-type").toList) ("atom".toList) = false))) := by
  have hpf : parse_feed fetch now url =
      (match (fetch url).headers with
       | some hs =>
           if ctBad hs
           then Except.error (FeedErr.wrongContentType (lowerS (lookupHdr hs "content-type")))
           else parseStage2 now (fetch url)
       | none => parseStage2 now (fetch url)) := by
    simp [parse_feed, hv]
  constructor
  · intro hn
    rw [hpf, hn]
    exact parseStage2_not_wct now (fetch url)
  · intro hs hheq
    rw [hpf, hheq]
    dsimp only
    by_cases hb : ctBad hs
    · rw [if_pos hb]
      constructor
      · intro _; exact (ctBad_true_iff hs).mp hb
      · intro _; rfl
    · rw [if_neg hb]
      rw [parseStage2_not_wct]
      constructor
      · intro hfalse; exact absurd hfalse (by simp)
      · intro hcontra; exact absurd ((ctBad_true_iff hs).mpr hcontra) hb

/-- A fetch returning an HTML content type, and one returning no headers. -/
def fetchHtml : String → RawFeed :=
  fun _ => ⟨some [("content-type", "text/html; charset=utf-8")], false, none, some "rss20", none, []⟩

/-- C4 witness: with an HTML content type the parse fails with
`WrongContentType`; with no headers it does not. -/
theorem c4_content_type_witness :
    isWCT (parse_feed fetchHtml "t" "http://e.com") = true
    ∧ isWCT (parse_feed fetchNothing "t" "http://e.com") = false := by
  constructor
  · exact ((c4_content_type fetchHtml "t" "http://e.com" (by decide)).2
      [("content-type", "text/html; charset=utf-8")] rfl).mpr (by decide)
  · exact (c4_content_type fetchNothing "t" "http://e.com" (by decide)).1 rfl

/-- C5: the readability score returned by `analyze` always lies in
[0, 100]; it is 0 when the whitespace word count or the sentence count
is 0, and otherwise it is the Flesch Reading Ease value clamped to
[0, 100]. -/
theorem c5_readability (np : String → List String) (a : Article) (kopt : Option (List String)) :
    0 ≤ (analyze_content np a kopt).readability_score
    ∧ (analyze_content np a kopt).readability_score ≤ 100
    ∧ (((pySplit a.content.toList).length = 0 ∨ sentCount a.content.toList = 0) →
        (analyze_content np a kopt).readability_score = 0)
    ∧ ((pySplit a.content.toList).length ≠ 0 → sentCount a.content.toList ≠ 0 →
        (analyze_content np a kopt).readability_score
          = max 0 (min 100 ((206.835 : ℚ)
              - (1.015 : ℚ) * (((pySplit a.content.toList).length : ℚ)
                               / (sentCount a.content.toList : ℚ))
              - (84.6 : ℚ) * ((syllCount a.content.toList : ℚ)
                              / ((pySplit a.content.toList).length : ℚ))))) := by
  have hr : (analyze_content np a kopt).readability_score = readabilityOf a.content := rfl
  rw [hr]
  unfold readabilityOf
  by_cases hcond : sentCount a.content.toList = 0 ∨ (pySplit a.content.toList).length = 0
  · rw [if_pos hcond]
    refine ⟨le_refl 0, by norm_num, fun _ => rfl, fun hw hsent => ?_⟩
    rcases hcond with h | h
    · exact absurd h hsent
    · exact absurd h hw
  · rw [if_neg hcond]
    refine ⟨le_max_left 0 _, max_le (by norm_num) (min_le_left 100 _), fun h => ?_, fun _ _ => rfl⟩
    rcases h with h | h
    · exact absurd (Or.inr h) hcond
    · exact absurd (Or.inl h) hcond

/-- C5 witness: the empty content scores 0; a concrete one-sentence
content gets exactly the clamped Flesch value. -/
theorem c5_readability_witness :
    (analyze_content npNone ⟨"", "", ""⟩ none).readability_score = 0
    ∧ (analyze_content npNone ⟨"Hello world.", "", ""⟩ none).readability_score
      = max 0 (min 100 ((206.835 : ℚ) - (1.015 : ℚ) * ((2 : ℚ) / (2 : ℚ))
          - (84.6 : ℚ) * ((3 : ℚ) / (2 : ℚ)))) := by
  constructor
  · exact (c5_readability npNone ⟨"", "", ""⟩ none).2.2.1 (Or.inl (by decide))
  · have h := (c5_readability npNone ⟨"Hello world.", "", ""⟩ none).2.2.2
      (by decide) (by decide)
    rw [show (pySplit ("Hello world." : String).toList).length = 2 from by decide,
        show sentCount ("Hello world." : String).toList = 2 from by decide,
        show syllCount ("Hello world." : String).toList = 3 from by decide] at h
    rw [h]
    norm_num

/-- C6: analyzing the empty article yields `word_count == 0`,
`readability_score == 0`, density 0 for every keyword in the density
map, and — when no keywords are supplied and the noun-phrase extractor
finds nothing — `focus_keyword == ""`. -/
theorem c6_empty_article (np : String → List String) (kopt : Option (List String)) :
    (analyze_content np ⟨"", "", ""⟩ kopt).word_count = 0
    ∧ (analyze_content np ⟨"", "", ""⟩ kopt).readability_score = 0
    ∧ (∀ p ∈ (analyze_content np ⟨"", "", ""⟩ kopt).keyword_density, p.2 = 0)
    ∧ (np "" = [] → (kopt = none ∨ kopt = some []) →
        (analyze_content np ⟨"", "", ""⟩ kopt).focus_keyword = "") := by
  refine ⟨rfl, rfl, ?_, ?_⟩
  · intro p hp
    simp only [analyze_content, List.mem_map] at hp
    obtain ⟨kw, _, rfl⟩ := hp
    rfl
  · intro hnp hk
    rcases hk with rfl | rfl
    · simp [analyze_content, hnp]
    · simp [analyze_content, hnp]

/-- C6 witness: the empty article with no keywords supplied and a
noun-phrase extractor that finds nothing. -/
theorem c6_empty_article_witness :
    (analyze_content npNone ⟨"", "", ""⟩ none).focus_keyword = ""
    ∧ (analyze_content npNone ⟨"", "", ""⟩ none).word_count = 0 :=
  ⟨(c6_empty_article npNone none).2.2.2 rfl (Or.inl rfl),
   (c6_empty_article npNone none).1⟩

theorem extractEntry_content (now ftitle : String) (e : FPEntry) (r : ArticleRecord)
    (h : extractEntry now ftitle e = Except.ok r) :
    r.content = specFallbackContent e := by
  unfold extractEntry at h
  unfold specFallbackContent
  cases hcb : e.contentBlocks with
  | none =>
      rw [hcb] at h
      cases hs : e.summary with
      | none =>
          rw [hs] at h
          simp only [Except.ok.injEq] at h
          rw [← h]
          rfl
      | some s =>
          rw [hs] at h
          simp only [Except.ok.injEq] at h
          rw [← h]
          rfl
  | some l =>
      cases l with
      | nil => rw [hcb] at h; simp at h
      | cons v vs =>
          rw [hcb] at h
          simp only [Except.ok.injEq] at h
          rw [← h]
          rfl

theorem extractAll_contents (now ftitle : String) :
    ∀ (es : List FPEntry) (rs : List ArticleRecord),
      extractAll now ftitle es = Except.ok rs →
      rs.map ArticleRecord.content = es.map specFallbackContent := by
  intro es
  induction es with
  | nil =>
      intro rs h
      simp only [extractAll, Except.ok.injEq] at h
      rw [← h]
      rfl
  | cons e es ih =>
      intro rs h
      simp only [extractAll] at h
      cases hce : extractEntry now ftitle e with
      | error err => rw [hce] at h; simp at h
      | ok r =>
          rw [hce] at h
          cases ha : extractAll now ftitle es with
          | error err => rw [ha] at h; simp at h
          | ok rs2 =>
              rw [ha] at h
              simp only [Except.ok.injEq] at h
              rw [← h, List.map_cons, List.map_cons]
              rw [extractEntry_content now ftitle e r hce, ih rs2 ha]

theorem parseStage2_contents (now : String) (feed : RawFeed) (rs : List ArticleRecord)
    (h : parseStage2 now feed = Except.ok rs) :
    rs.map ArticleRecord.content = feed.entries.map specFallbackContent := by
  unfold parseStage2 at h
  split_ifs at h
  exact extractAll_contents _ _ feed.entries rs h

/-- C7: whenever `parse_feed` succeeds, the `content` of each produced
record is given by the fallback order: first structured content block,
else summary, else description, else the empty string. -/
theorem c7_content_fallback (fetch : String → RawFeed) (now url : String)
    (rs : List ArticleRecord) (h : parse_feed fetch now url = Except.ok rs) :
    rs.map ArticleRecord.content = (fetch url).entries.map specFallbackContent := by
  unfold parse_feed at h
  by_cases hv : is_valid_url url = true
  · rw [if_pos hv] at h
    dsimp only at h
    cases hh : (fetch url).headers with
    | none => rw [hh] at h; exact parseStage2_contents now (fetch url) rs h
    | some hs =>
        rw [hh] at h
        dsimp only at h
        by_cases hb : ctBad hs
        · rw [if_pos hb] at h; simp at h
        · rw [if_neg hb] at h; exact parseStage2_contents now (fetch url) rs h
  · rw [if_neg hv] at h
    simp at h

/-- C7 witness: a concrete feed with a description-only entry and a
summary-plus-content-block entry; the block value wins in the second. -/
theorem c7_content_fallback_witness :
    parse_feed c7Fetch "T" "http://e.com" = Except.ok c7Records
    ∧ c7Records.map ArticleRecord.content = ["only description", "block value"] := by
  have hok : parse_feed c7Fetch "T" "http://e.com" = Except.ok c7Records := rfl
  refine ⟨hok, ?_⟩
  have h := c7_content_fallback c7Fetch "T" "http://e.com" c7Records hok
  rw [h]
  rfl

/-- C8: a URL whose parsed form lacks a scheme or a network location is
rejected by `is_valid_url`, and `parse_feed` fails with `InvalidInput`
for every possible fetch primitive — so no fetch is consulted. -/
theorem c8_invalid_url (url : String) (s n : List Char) (fetch : String → RawFeed)
    (now : String) (h : pyUrlsplit url = some (s, n)) (hmiss : s = [] ∨ n = []) :
    is_valid_url url = false
    ∧ parse_feed fetch now url = Except.error FeedErr.invalidInput := by
  have hv : is_valid_url url = false := by
    unfold is_valid_url
    rw [h]
    rcases hmiss with rfl | rfl <;> simp
  refine ⟨hv, ?_⟩
  unfold parse_feed
  rw [if_neg (by rw [hv]; exact Bool.false_ne_true)]

/-- C8 witness: "example.com" has neither scheme nor netloc. -/
theorem c8_invalid_url_witness :
    is_valid_url "example.com" = false
    ∧ parse_feed fetchNothing "t" "example.com" = Except.error FeedErr.invalidInput :=
  c8_invalid_url "example.com" [] [] fetchNothing "t" (by decide) (Or.inl rfl)

/-- C9: `has_internal_links` can be true only when the content contains
the exact markup fragment `href="/"`; a link to `/about` does not count,
while a link whose target is exactly `/` does. -/
theorem c9_internal_links :
    (∀ (np : String → List String) (a : Article) (kopt : Option (List String)),
        (analyze_content np a kopt).content_analysis.has_internal_links = true →
        hasSub a.content.toList ("href=\"/\"".toList) = true)
    ∧ (analyze_content npNone ⟨"<a href=\"/about\">x</a>", "", ""⟩
        (some ["k"])).content_analysis.has_internal_links = false
    ∧ (analyze_content npNone ⟨"<a href=\"/\">x</a>", "", ""⟩
        (some ["k"])).content_analysis.has_internal_links = true := by
  refine ⟨?_, by decide, by decide⟩
  intro np a kopt h
  have h2 : reSearchAux ("<a".toList) ["href=\"/\"".toList, ">".toList] a.content.toList
      = true := h
  exact reSearchAux_hasSub a.content.toList ("<a".toList) ("href=\"/\"".toList)
    [">".toList] h2

/-- C9 witness: from a concrete content whose heuristic fires, the
`href="/"` fragment is present. -/
theorem c9_internal_links_witness :
    hasSub ("<a href=\"/\">see</a>" : String).toList ("href=\"/\"".toList) = true :=
  (c9_internal_links).1 npNone ⟨"<a href=\"/\">see</a>", "", ""⟩ (some ["k"]) (by decide)

/-- C10: failed registry operations leave the registry untouched, and
they fail exactly on empty name, empty URL or invalid URL (for add) and
on an absent name (for remove). -/
theorem c10_registry_atomic (reg : List (String × String)) (name url : String) :
    ((add_feed reg name url).2.isSome = true → (add_feed reg name url).1 = reg)
    ∧ ((add_feed reg name url).2.isSome = true
        ↔ (name = "" ∨ url = "" ∨ is_valid_url url = false))
    ∧ ((remove_feed reg name).2.isSome = true → (remove_feed reg name).1 = reg)
    ∧ ((remove_feed reg name).2.isSome = true ↔ hasKey reg name = false) := by
  have hadd : ((add_feed reg name url).2.isSome = true → (add_feed reg name url).1 = reg)
      ∧ ((add_feed reg name url).2.isSome = true
          ↔ (name = "" ∨ url = "" ∨ is_valid_url url = false)) := by
    unfold add_feed
    by_cases h1 : name = "" <;> by_cases h2 : url = "" <;>
      by_cases h3 : is_valid_url url = true <;> simp [h1, h2, h3]
  have hrem : ((remove_feed reg name).2.isSome = true → (remove_feed reg name).1 = reg)
      ∧ ((remove_feed reg name).2.isSome = true ↔ hasKey reg name = false) := by
    unfold remove_feed
    by_cases h4 : hasKey reg name = true <;> simp [h4]
  exact ⟨hadd.1, hadd.2, hrem.1, hrem.2⟩

/-- C10 witness: a failing add (empty name) and a failing remove (absent
name) both leave a concrete registry unchanged. -/
theorem c10_registry_atomic_witness :
    (add_feed [("a", "http://a.example/")] "" "http://b.example/").1
      = [("a", "http://a.example/")]
    ∧ (remove_feed [("a", "http://a.example/")] "zz").1 = [("a", "http://a.example/")] :=
  ⟨(c10_registry_atomic [("a", "http://a.example/")] "" "http://b.example/").1 (by decide),
   (c10_registry_atomic [("a", "http://a.example/")] "zz" "").2.2.1 (by decide)⟩
